import Mathlib

/-!
Shallow embedding of the task-CRUD repository core:
the `Task` entity (`app/models/task.py`), the transient input shapes
(`app/schemas/task.py`), the generic repository operations of
`BaseCRUD` (`app/crud/base.py`) with its exception taxonomy
(`app/crud/exeptions.py`), and the list endpoint defaults
(`app/api/api_v1/tasks.py`).

Modelling conventions:
* Timestamps (`DateTime(timezone=True)`) are instants of a single UTC
  clock, modelled as `Nat`.  Each operation that reads the clock
  (`utc_now` defaults / `onupdate`) receives one `now : Nat` argument;
  clock monotonicity across operations is an explicit hypothesis where a
  theorem needs it.
* The async session is modelled as a pair of stores: the `committed`
  store (what other readers see) and the `pending` store (the state the
  session's statements have built since the last commit).  `commit`
  publishes `pending`; `rollback` discards it.  The session also counts
  the `db.rollback()` calls so that the rollback behaviour of each
  operation is observable.
* Storage-layer faults (`SQLAlchemyError`) are external nondeterminism;
  each operation takes a fault-injection argument naming which of its
  database calls (if any) raises.
* Raw-dict inputs (`Union[..., Dict[str, Any]]`) are modelled as
  association lists from column-name strings to well-typed values of the
  two caller-suppliable payload columns (`datetime_to_do`, `task_info`);
  names outside the schema are representable (they are what the
  unknown-field claims are about).  Supplying the primary key or the
  audit columns through a raw dict, or ill-typed values, is not done by
  any caller in the repository and is not modelled.
-/

/-- Equality of operation outcomes is decidable (used to evaluate the
development on concrete inputs). -/
instance {ε α : Type} [DecidableEq ε] [DecidableEq α] : DecidableEq (Except ε α)
  | Except.ok a, Except.ok b =>
    if h : a = b then Decidable.isTrue (congrArg Except.ok h)
    else Decidable.isFalse (fun hc => h (Except.ok.inj hc))
  | Except.ok _, Except.error _ => Decidable.isFalse (fun hc => Except.noConfusion hc)
  | Except.error _, Except.ok _ => Decidable.isFalse (fun hc => Except.noConfusion hc)
  | Except.error a, Except.error b =>
    if h : a = b then Decidable.isTrue (congrArg Except.error h)
    else Decidable.isFalse (fun hc => h (Except.error.inj hc))

namespace App

/-- A UTC instant (`datetime` with timezone in the source). -/
abbrev Instant := Nat

/-- The persisted `Task` row (`app/models/task.py`): integer primary key,
`created_at`/`updated_at` audit columns (defaults `utc_now`, the latter
also `onupdate=utc_now`), the caller-supplied `datetime_to_do` and
`task_info` payload columns. -/
structure Task where
  id : Nat
  created_at : Instant
  updated_at : Instant
  datetime_to_do : Instant
  task_info : String
deriving Repr, DecidableEq

/-- The backing table: rows in insertion order plus the state of the
integer primary-key sequence (the next id the store will assign). -/
structure Store where
  rows : List Task
  nextId : Nat
deriving Repr, DecidableEq

/-- The scoped unit-of-work (`AsyncSession`): the published (`committed`)
store, the uncommitted (`pending`) store built by the session's
statements, and a counter of the `db.rollback()` calls performed,
making explicit-rollback behaviour observable. -/
structure Session where
  committed : Store
  pending : Store
  rollbacks : Nat
deriving Repr, DecidableEq

/-- Models `db.commit()`: publish the pending state. -/
def Session.commit (s : Session) : Session :=
  { s with committed := s.pending }

/-- Models `db.rollback()`: discard the pending state (and count the call). -/
def Session.rollback (s : Session) : Session :=
  { s with pending := s.committed, rollbacks := s.rollbacks + 1 }

/-- The exception taxonomy of `app/crud/exeptions.py`: the `CRUDException`
base (the unclassified kind) and its four classified subclasses. -/
inductive CrudError
  | crudException
  | notFoundError
  | createError
  | updateError
  | deleteError
deriving Repr, DecidableEq

/-- What an operation can signal: a member of the CRUD taxonomy, or a
plain Python `TypeError` escaping `model(**kwargs)` when a raw create
dict holds a name that is not a column (never part of the taxonomy). -/
inductive OpError
  | crud (e : CrudError)
  | typeError
deriving Repr, DecidableEq

/-- A value of a raw input dict: one of the two payload column types. -/
inductive Value
  | dt (n : Instant)
  | str (s : String)
deriving Repr, DecidableEq

/-- A raw input dict (`Dict[str, Any]`) / a `model_dump(exclude_unset=True)`
result: the explicitly-set fields, as name/value pairs. -/
abbrev RowData := List (String × Value)

/-- Whether `k` names a mapped column of the `tasks` table (what the
compiled `UPDATE ... VALUES` statement will consume). -/
def isTaskColumn (k : String) : Bool :=
  k == "id" || k == "created_at" || k == "updated_at" ||
    k == "datetime_to_do" || k == "task_info"

/-- The `SELECT ... WHERE id = id` query followed by `.scalars().first()`. -/
def selectById (st : Store) (id : Nat) : Option Task :=
  (st.rows.filter (fun t => t.id == id)).head?

/-- The create-input shape (`TaskCreate`): both payload fields required. -/
structure TaskCreate where
  datetime_to_do : Instant
  task_info : String
deriving Repr, DecidableEq

/-- Models `TaskCreate.model_dump(exclude_unset=True)`: both fields are required,
hence always set. -/
def TaskCreate.dump (c : TaskCreate) : RowData :=
  [("datetime_to_do", Value.dt c.datetime_to_do), ("task_info", Value.str c.task_info)]

/-- The update-input shape (`TaskUpdate`): both payload fields optional,
with explicit presence tracking (`exclude_unset`). -/
structure TaskUpdate where
  datetime_to_do : Option Instant := none
  task_info : Option String := none
deriving Repr, DecidableEq

/-- Models `TaskUpdate.model_dump(exclude_unset=True)`: only the set fields. -/
def TaskUpdate.dump (u : TaskUpdate) : RowData :=
  (match u.datetime_to_do with
   | some d => [("datetime_to_do", Value.dt d)]
   | none => []) ++
  (match u.task_info with
   | some i => [("task_info", Value.str i)]
   | none => [])

/-- One step of update's in-memory loop
`if hasattr(db_obj, field): setattr(db_obj, field, update_data[field])`:
a set payload field overwrites the attribute, any other name leaves the
object unchanged (`hasattr` is false for names outside the schema). -/
def setattrField (t : Task) (kv : String × Value) : Task :=
  if kv.1 == "datetime_to_do" then
    match kv.2 with
    | Value.dt n => { t with datetime_to_do := n }
    | _ => t
  else if kv.1 == "task_info" then
    match kv.2 with
    | Value.str s => { t with task_info := s }
    | _ => t
  else t

/-- The effect of the compiled `UPDATE ... VALUES(**update_data)` on one
row: the supplied columns are overwritten and, because `updated_at` is
never among the supplied columns, its `onupdate=utc_now` hook fires. -/
def applyRow (t : Task) (data : RowData) (now : Instant) : Task :=
  { data.foldl setattrField t with updated_at := now }

/-- The statement `db.execute(sqlalchemy_update(model).where(id == id).values(**data))`
against the pending state: rejects the statement (`CompileError:
Unconsumed column names`, a `SQLAlchemyError`) when some name is not a
column; otherwise rewrites every row matching `id`. -/
def execUpdate (st : Store) (id : Nat) (data : RowData) (now : Instant) :
    Option Store :=
  if data.all (fun kv => isTaskColumn kv.1) then
    some { st with
           rows := st.rows.map (fun t => if t.id == id then applyRow t data now else t) }
  else none

/-- The statement `db.execute(sqlalchemy_delete(model).where(id == id))` against the
pending state. -/
def execDelete (st : Store) (id : Nat) : Store :=
  { st with rows := st.rows.filter (fun t => !(t.id == id)) }

/-- An under-construction row (`model(**create_data)` before flush):
which payload columns were supplied.  Both are `NOT NULL` without a
Python-side value, so the flush rejects an incomplete row. -/
structure PendingRow where
  datetime_to_do : Option Instant := none
  task_info : Option String := none
deriving Repr, DecidableEq

/-- One keyword argument of `model(**create_data)`: a payload column is
recorded; any other name is not modelled (a name that is no column at
all raises `TypeError` there). -/
def applyField (r : PendingRow) (kv : String × Value) : Option PendingRow :=
  if kv.1 == "datetime_to_do" then
    match kv.2 with
    | Value.dt n => some { r with datetime_to_do := some n }
    | _ => none
  else if kv.1 == "task_info" then
    match kv.2 with
    | Value.str s => some { r with task_info := some s }
    | _ => none
  else none

/-- Fault injection for `create`: which of its database calls (if any)
raises `SQLAlchemyError`. -/
inductive CreateFault
  | noFault
  | atCommit
  | atRefresh
deriving Repr, DecidableEq

/-- Fault injection for `update`. -/
inductive UpdateFault
  | noFault
  | atExecute
  | atCommit
  | atRefresh
deriving Repr, DecidableEq

/-- Fault injection for `delete` (`atLookup` faults the `SELECT` of the
inner `get` call). -/
inductive DeleteFault
  | noFault
  | atLookup
  | atExecute
  | atCommit
deriving Repr, DecidableEq

/-- Operation `BaseCRUD.get`: one `SELECT`; absence is returned as `none`, a
storage fault is re-raised as the bare `CRUDException` — with no
rollback call (the `except` branch of `get` only logs and raises). -/
def BaseCRUD.get (s : Session) (id : Nat) (fault : Bool) :
    Except OpError (Option Task) × Session :=
  if fault then (.error (.crud .crudException), s)
  else (.ok (selectById s.pending id), s)

/-- Operation `BaseCRUD.get_many`: a `SELECT ... OFFSET skip LIMIT limit` (defaults
`skip=0`, `limit=100`); a storage fault is re-raised as the bare
`CRUDException`, again without a rollback call. -/
def BaseCRUD.get_many (s : Session) (fault : Bool)
    (skip : Nat := 0) (limit : Nat := 100) :
    Except OpError (List Task) × Session :=
  if fault then (.error (.crud .crudException), s)
  else (.ok ((s.pending.rows.drop skip).take limit), s)

/-- Operation `BaseCRUD.create` on a raw dict: an empty dict raises
`CreateError("No data provided for creation")` before any database call
(`CreateError` is not a `SQLAlchemyError`, so it propagates without a
rollback); otherwise the row is built (`model(**create_data)`), added,
flushed and committed — the flush assigns the new primary key and
evaluates the `utc_now` column defaults — and then refreshed.  Any
`SQLAlchemyError` on the way (including a `NOT NULL` violation for a
missing payload column) is answered by `db.rollback()` and re-raised as
`CreateError`. -/
def BaseCRUD.createDict (s : Session) (now : Instant) (data : RowData)
    (fault : CreateFault) : Except OpError Task × Session :=
  if data.isEmpty then
    (.error (.crud .createError), s)
  else
    match data.foldlM applyField {} with
    | none => (.error .typeError, s)
    | some row =>
      match row.datetime_to_do, row.task_info with
      | some d, some i =>
        let t : Task :=
          { id := s.pending.nextId, created_at := now, updated_at := now,
            datetime_to_do := d, task_info := i }
        match fault with
        | .atCommit => (.error (.crud .createError), s.rollback)
        | .atRefresh =>
          (.error (.crud .createError),
            (Session.commit
              { s with pending := ⟨s.pending.rows ++ [t], s.pending.nextId + 1⟩ }).rollback)
        | .noFault =>
          (.ok t,
            Session.commit
              { s with pending := ⟨s.pending.rows ++ [t], s.pending.nextId + 1⟩ })
      | _, _ => (.error (.crud .createError), s.rollback)

/-- Operation `BaseCRUD.create` on the `TaskCreate` schema. -/
def BaseCRUD.create (s : Session) (now : Instant) (obj_in : TaskCreate)
    (fault : CreateFault) : Except OpError Task × Session :=
  BaseCRUD.createDict s now obj_in.dump fault

/-- Operation `BaseCRUD.update` on a raw dict: an empty dict is an immediate no-op
returning the object (no database call, no error).  Otherwise the
in-memory `hasattr`-guarded `setattr` loop runs, then the `UPDATE`
statement is executed against the store, committed, and the object is
refreshed from the committed row (which fails when no row carries its
id).  Any `SQLAlchemyError` — including the statement rejecting an
unknown column name — is answered by `db.rollback()` and re-raised as
`UpdateError`. -/
def BaseCRUD.updateDict (s : Session) (now : Instant) (db_obj : Task)
    (data : RowData) (fault : UpdateFault) : Except OpError Task × Session :=
  if data.isEmpty then
    (.ok db_obj, s)
  else
    let _obj1 := data.foldl setattrField db_obj
    match execUpdate s.pending db_obj.id data now, fault with
    | none, _ => (.error (.crud .updateError), s.rollback)
    | some _, .atExecute => (.error (.crud .updateError), s.rollback)
    | some st1, .atCommit =>
      (.error (.crud .updateError), (Session.rollback { s with pending := st1 }))
    | some st1, .atRefresh =>
      (.error (.crud .updateError),
        (Session.commit { s with pending := st1 }).rollback)
    | some st1, .noFault =>
      let s1 := Session.commit { s with pending := st1 }
      match selectById s1.pending db_obj.id with
      | none => (.error (.crud .updateError), s1.rollback)
      | some t => (.ok t, s1)

/-- Operation `BaseCRUD.update` on the `TaskUpdate` schema. -/
def BaseCRUD.update (s : Session) (now : Instant) (db_obj : Task)
    (obj_in : TaskUpdate) (fault : UpdateFault) : Except OpError Task × Session :=
  BaseCRUD.updateDict s now db_obj obj_in.dump fault

/-- Operation `BaseCRUD.delete`: resolves the row through `get` (whose fault
propagates as the bare `CRUDException`, uncaught by delete's own
`except SQLAlchemyError` and without any rollback); a missing row
raises `NotFoundError` (again not a `SQLAlchemyError`: no rollback);
otherwise the `DELETE` statement runs and is committed, a
`SQLAlchemyError` there being answered by `db.rollback()` and re-raised
as `DeleteError`.  On success the pre-removal row is returned. -/
def BaseCRUD.delete (s : Session) (id : Nat) (fault : DeleteFault) :
    Except OpError Task × Session :=
  match BaseCRUD.get s id (fault == DeleteFault.atLookup) with
  | (.error e, s') => (.error e, s')
  | (.ok none, s') => (.error (.crud .notFoundError), s')
  | (.ok (some obj), s') =>
    match fault with
    | .atExecute => (.error (.crud .deleteError), s'.rollback)
    | .atCommit =>
      (.error (.crud .deleteError),
        (Session.rollback { s' with pending := execDelete s'.pending id }))
    | _ =>
      (.ok obj, Session.commit { s' with pending := execDelete s'.pending id })

/-- Endpoint `GET /list` (`read_all_tasks_endpoint`): same pagination defaults
`skip=0`, `limit=100` at the endpoint boundary; a `CRUDException` is
mapped to a 500 response. -/
def read_all_tasks_endpoint (s : Session) (fault : Bool)
    (skip : Nat := 0) (limit : Nat := 100) : Except Nat (List Task) :=
  match BaseCRUD.get_many s fault skip limit with
  | (.ok ts, _) => .ok ts
  | (.error _, _) => .error 500

/-! ## The call dispatcher and fault descriptors (for C2 and C9) -/

/-- One repository call with its inputs and injected fault. -/
inductive Call
  | get (id : Nat) (fault : Bool)
  | list (skip limit : Nat) (fault : Bool)
  | create (obj_in : TaskCreate) (fault : CreateFault)
  | update (db_obj : Task) (obj_in : TaskUpdate) (fault : UpdateFault)
  | delete (id : Nat) (fault : DeleteFault)
deriving Repr, DecidableEq

/-- Forget an operation's result value, keeping the signalled error (if
any) and the resulting session. -/
def errOf {α : Type} : Except OpError α × Session → Option OpError × Session
  | (.error e, s) => (some e, s)
  | (.ok _, s) => (none, s)

/-- Dispatch one repository call. -/
def runCall (s : Session) (now : Instant) : Call → Option OpError × Session
  | .get id f => errOf (BaseCRUD.get s id f)
  | .list skip limit f => errOf (BaseCRUD.get_many s f skip limit)
  | .create inp f => errOf (BaseCRUD.create s now inp f)
  | .update e inp f => errOf (BaseCRUD.update s now e inp f)
  | .delete id f => errOf (BaseCRUD.delete s id f)

/-- Whether the injected fault actually fires during the call: a fault
point is only reached if its database call executes (an empty update
returns before any statement; delete's own statements only run when the
row was found). -/
def Call.faultFires (s : Session) : Call → Bool
  | .get _ f => f
  | .list _ _ f => f
  | .create _ f => f != CreateFault.noFault
  | .update _ inp f => (f != UpdateFault.noFault) && !(inp.dump.isEmpty)
  | .delete id f =>
    (f == DeleteFault.atLookup) ||
      ((f != DeleteFault.noFault) && (selectById s.pending id).isSome)

/-- The kind a firing fault at this call is re-signalled as. -/
def Call.faultError : Call → CrudError
  | .get _ _ => .crudException
  | .list _ _ _ => .crudException
  | .create _ _ => .createError
  | .update _ _ _ => .updateError
  | .delete _ f => if f == DeleteFault.atLookup then .crudException else .deleteError

/-- Whether the operation answers the fault with a `db.rollback()` call:
the write operations do, inside their own `except SQLAlchemyError`
branch; the read operations and delete's lookup phase do not. -/
def Call.faultRollsBack : Call → Bool
  | .get _ _ => false
  | .list _ _ _ => false
  | .create _ _ => true
  | .update _ _ _ => true
  | .delete _ f => f != DeleteFault.atLookup

/-- The same call without its injected fault. -/
def Call.clearFault : Call → Call
  | .get id _ => .get id false
  | .list a b _ => .list a b false
  | .create i _ => .create i CreateFault.noFault
  | .update e i _ => .update e i UpdateFault.noFault
  | .delete id _ => .delete id DeleteFault.noFault

/-- The store the update statement builds from a dict of real columns. -/
def updatedStore (st : Store) (id : Nat) (data : RowData) (now : Instant) : Store :=
  ⟨st.rows.map (fun t => if t.id == id then applyRow t data now else t), st.nextId⟩

/-- Well-formedness of a store at instant `now`: duplicate-free ids, all
ids below the sequence value, and `created_at ≤ updated_at ≤ now` for
every row. -/
def Store.WF (st : Store) (now : Instant) : Prop :=
  (st.rows.map Task.id).Nodup ∧
  ∀ t ∈ st.rows, t.id < st.nextId ∧ t.created_at ≤ t.updated_at ∧ t.updated_at ≤ now

/-- The sessions reachable from the initial empty store through
repository calls at non-decreasing clock instants, with arbitrary fault
injection. -/
inductive Reachable : Session → Instant → Prop
  | init : Reachable ⟨⟨[], 1⟩, ⟨[], 1⟩, 0⟩ 0
  | step {s : Session} {now now' : Instant} (c : Call) :
      Reachable s now → now ≤ now' → Reachable (runCall s now' c).snd now'

/-! ## Basic lemmas about the row-level primitives -/

theorem setattrField_id (t : Task) (kv : String × Value) :
    (setattrField t kv).id = t.id := by
  unfold setattrField
  repeat' split
  all_goals rfl

theorem setattrField_created_at (t : Task) (kv : String × Value) :
    (setattrField t kv).created_at = t.created_at := by
  unfold setattrField
  repeat' split
  all_goals rfl

theorem foldl_setattrField_id (data : RowData) :
    ∀ t : Task, (data.foldl setattrField t).id = t.id := by
  induction data with
  | nil => intro t; rfl
  | cons kv tl ih =>
    intro t
    simpa [List.foldl_cons, ih] using setattrField_id t kv

theorem foldl_setattrField_created_at (data : RowData) :
    ∀ t : Task, (data.foldl setattrField t).created_at = t.created_at := by
  induction data with
  | nil => intro t; rfl
  | cons kv tl ih =>
    intro t
    simpa [List.foldl_cons, ih] using setattrField_created_at t kv

theorem applyRow_id (t : Task) (data : RowData) (now : Instant) :
    (applyRow t data now).id = t.id := by
  simpa [applyRow] using foldl_setattrField_id data t

theorem applyRow_created_at (t : Task) (data : RowData) (now : Instant) :
    (applyRow t data now).created_at = t.created_at := by
  simpa [applyRow] using foldl_setattrField_created_at data t

theorem applyRow_updated_at (t : Task) (data : RowData) (now : Instant) :
    (applyRow t data now).updated_at = now := rfl

/-- In a table whose ids are duplicate-free, the `SELECT ... first()`
that follows an id-keyed `UPDATE` of a present row returns exactly the
rewritten row. -/
theorem selectById_map_eq (rows : List Task) (n : Nat) (g : Task → Task)
    (hg : ∀ t, (g t).id = t.id) (e : Task)
    (hnd : (rows.map Task.id).Nodup) (he : e ∈ rows) :
    selectById ⟨rows.map (fun t => if t.id == e.id then g t else t), n⟩ e.id
      = some (g e) := by
  induction rows with
  | nil => cases he
  | cons h tl ih =>
    simp only [List.map_cons, List.nodup_cons] at hnd
    rcases hnd with ⟨hnid, hndtl⟩
    by_cases hid : h.id = e.id
    · have hhe : h = e := by
        rcases List.mem_cons.mp he with rfl | hmem
        · rfl
        · exact absurd (hid ▸ List.mem_map.mpr ⟨e, hmem, rfl⟩) hnid
      subst hhe
      simp [selectById, List.filter_cons, hg]
    · have hbeq : (h.id == e.id) = false := beq_false_of_ne hid
      have hmem : e ∈ tl := by
        rcases List.mem_cons.mp he with rfl | hmem
        · exact absurd rfl hid
        · exact hmem
      have htl := ih hndtl hmem
      simp only [selectById] at htl
      simp only [selectById, List.map_cons, List.filter_cons, hbeq, hid]
      simpa [hid] using htl

/-- General success shape of `updateDict`: with a non-empty dict of real
column names, no injected fault, duplicate-free ids and a previously
fetched row, the operation rewrites exactly that row, commits, and
returns the refreshed row. -/
theorem updateDict_ok (s : Session) (now : Instant) (e : Task) (data : RowData)
    (hne : data ≠ [])
    (hvalid : data.all (fun kv => isTaskColumn kv.1) = true)
    (hnd : (s.pending.rows.map Task.id).Nodup)
    (he : e ∈ s.pending.rows) :
    BaseCRUD.updateDict s now e data UpdateFault.noFault
      = (.ok (applyRow e data now),
         Session.commit
           { s with pending :=
               ⟨s.pending.rows.map (fun t => if t.id == e.id then applyRow t data now else t),
                s.pending.nextId⟩ }) := by
  have hie : data.isEmpty = false := by
    cases data with
    | nil => exact absurd rfl hne
    | cons a l => rfl
  have hex : execUpdate s.pending e.id data now
      = some ⟨s.pending.rows.map (fun t => if t.id == e.id then applyRow t data now else t),
              s.pending.nextId⟩ := by
    simp [execUpdate, hvalid]
  have hsel := selectById_map_eq s.pending.rows s.pending.nextId
      (fun t => applyRow t data now) (fun t => applyRow_id t data now) e hnd he
  simp only [BaseCRUD.updateDict, hie, Bool.false_eq_true, if_false, hex]
  simp only [Session.commit]
  rw [hsel]


/-! ## C1 -/

/-- C1: for every previously-fetched entity and every update-input with at
least one field set, `update` returns an entity in which the set fields
equal the input's values, the unset schema fields keep their pre-update
values, `id` and `created_at` are unchanged, and `updated_at` (refreshed
to the operation's clock instant, which is later than the pre-update
value) strictly increased. -/
theorem claimC1_update_frame (s : Session) (now : Instant) (e : Task) (u : TaskUpdate)
    (hnd : (s.pending.rows.map Task.id).Nodup)
    (he : e ∈ s.pending.rows)
    (hset : u.datetime_to_do ≠ none ∨ u.task_info ≠ none)
    (hclk : e.updated_at < now) :
    ∃ t : Task,
      (BaseCRUD.update s now e u UpdateFault.noFault).fst = Except.ok t ∧
      t.id = e.id ∧
      t.created_at = e.created_at ∧
      e.updated_at < t.updated_at ∧
      t.updated_at = now ∧
      t.datetime_to_do = u.datetime_to_do.getD e.datetime_to_do ∧
      t.task_info = u.task_info.getD e.task_info := by
  rcases u with ⟨od, oi⟩
  rcases od with _ | d <;> rcases oi with _ | i
  · simp at hset
  · have hok := updateDict_ok s now e [("task_info", Value.str i)] (by simp) (by rfl) hnd he
    refine ⟨applyRow e [("task_info", Value.str i)] now, ?_, ?_, ?_, ?_, ?_, ?_, ?_⟩
    · show (BaseCRUD.updateDict s now e [("task_info", Value.str i)] UpdateFault.noFault).fst = _
      rw [hok]
    · exact applyRow_id e _ now
    · exact applyRow_created_at e _ now
    · rw [applyRow_updated_at]; exact hclk
    · exact applyRow_updated_at e _ now
    · rfl
    · rfl
  · have hok := updateDict_ok s now e [("datetime_to_do", Value.dt d)] (by simp) (by rfl) hnd he
    refine ⟨applyRow e [("datetime_to_do", Value.dt d)] now, ?_, ?_, ?_, ?_, ?_, ?_, ?_⟩
    · show (BaseCRUD.updateDict s now e [("datetime_to_do", Value.dt d)] UpdateFault.noFault).fst = _
      rw [hok]
    · exact applyRow_id e _ now
    · exact applyRow_created_at e _ now
    · rw [applyRow_updated_at]; exact hclk
    · exact applyRow_updated_at e _ now
    · rfl
    · rfl
  · have hok := updateDict_ok s now e
      [("datetime_to_do", Value.dt d), ("task_info", Value.str i)] (by simp) (by rfl) hnd he
    refine ⟨applyRow e [("datetime_to_do", Value.dt d), ("task_info", Value.str i)] now,
      ?_, ?_, ?_, ?_, ?_, ?_, ?_⟩
    · show (BaseCRUD.updateDict s now e
        [("datetime_to_do", Value.dt d), ("task_info", Value.str i)] UpdateFault.noFault).fst = _
      rw [hok]
    · exact applyRow_id e _ now
    · exact applyRow_created_at e _ now
    · rw [applyRow_updated_at]; exact hclk
    · exact applyRow_updated_at e _ now
    · rfl
    · rfl

/-- Witness for C1 at a concrete store, row and input. -/
theorem claimC1_update_frame_witness :
    ∃ t : Task,
      (BaseCRUD.update ⟨⟨[⟨1, 0, 0, 5, "a"⟩], 2⟩, ⟨[⟨1, 0, 0, 5, "a"⟩], 2⟩, 0⟩ 3
          ⟨1, 0, 0, 5, "a"⟩ ⟨some 7, none⟩ UpdateFault.noFault).fst = Except.ok t ∧
      t.id = 1 ∧ t.created_at = 0 ∧ (0 : Nat) < t.updated_at ∧ t.updated_at = 3 ∧
      t.datetime_to_do = 7 ∧ t.task_info = "a" :=
  claimC1_update_frame _ 3 _ ⟨some 7, none⟩ (by decide) (by decide)
    (Or.inl (by decide)) (by decide)

/-! ## C7 -/

/-- C7: for every entity and every update-input with zero fields
explicitly set, `update` is a no-op returning the entity unchanged
(including `updated_at`) with the session untouched, and is not an
error — this holds whatever fault the storage layer would raise, since
no database call is made. -/
theorem claimC7_update_empty_noop (s : Session) (now : Instant) (e : Task)
    (u : TaskUpdate) (f : UpdateFault)
    (hd : u.datetime_to_do = none) (hi : u.task_info = none) :
    BaseCRUD.update s now e u f = (.ok e, s) := by
  rcases u with ⟨od, oi⟩
  subst hd
  subst hi
  rfl

/-- Witness for C7 at a concrete store and row, with a fault injected at
the (never reached) commit step. -/
theorem claimC7_update_empty_noop_witness :
    BaseCRUD.update ⟨⟨[⟨1, 0, 0, 5, "a"⟩], 2⟩, ⟨[⟨1, 0, 0, 5, "a"⟩], 2⟩, 0⟩ 9
        ⟨1, 0, 0, 5, "a"⟩ ⟨none, none⟩ UpdateFault.atCommit
      = (.ok ⟨1, 0, 0, 5, "a"⟩, ⟨⟨[⟨1, 0, 0, 5, "a"⟩], 2⟩, ⟨[⟨1, 0, 0, 5, "a"⟩], 2⟩, 0⟩) :=
  claimC7_update_empty_noop _ 9 _ _ UpdateFault.atCommit rfl rfl


/-! ## C3 -/

/-- C3: for every valid create-input (non-empty `task_info` of at most
1024 characters, any `datetime_to_do`), `create` succeeds and returns an
entity whose id was freshly assigned by the store (the sequence value,
distinct from every existing row's id and never caller-supplied — the
create shape has no id field), whose `created_at` equals its
`updated_at`, and whose payload fields equal the supplied values. -/
theorem claimC3_create_success (s : Session) (now : Instant) (inp : TaskCreate)
    (hinfo : inp.task_info ≠ "")
    (hlen : inp.task_info.length ≤ 1024)
    (hfresh : ∀ r ∈ s.pending.rows, r.id < s.pending.nextId) :
    ∃ t : Task,
      BaseCRUD.create s now inp CreateFault.noFault
        = (Except.ok t,
           Session.commit { s with pending := ⟨s.pending.rows ++ [t], s.pending.nextId + 1⟩ }) ∧
      t.id = s.pending.nextId ∧
      (∀ r ∈ s.pending.rows, r.id ≠ t.id) ∧
      t.created_at = t.updated_at ∧
      t.created_at = now ∧
      t.datetime_to_do = inp.datetime_to_do ∧
      t.task_info = inp.task_info := by
  refine ⟨⟨s.pending.nextId, now, now, inp.datetime_to_do, inp.task_info⟩, rfl, rfl,
    fun r hr => Nat.ne_of_lt (hfresh r hr), rfl, rfl, rfl, rfl⟩

/-- Witness for C3: creating a task in an empty store. -/
theorem claimC3_create_success_witness :
    ∃ t : Task,
      BaseCRUD.create ⟨⟨[], 1⟩, ⟨[], 1⟩, 0⟩ 4 ⟨10, "hello"⟩ CreateFault.noFault
        = (Except.ok t, Session.commit ⟨⟨[], 1⟩, ⟨[t], 2⟩, 0⟩) ∧
      t.id = 1 ∧
      (∀ r ∈ ([] : List Task), r.id ≠ t.id) ∧
      t.created_at = t.updated_at ∧
      t.created_at = 4 ∧
      t.datetime_to_do = 10 ∧
      t.task_info = "hello" :=
  claimC3_create_success ⟨⟨[], 1⟩, ⟨[], 1⟩, 0⟩ 4 ⟨10, "hello"⟩ (by decide) (by decide)
    (by decide)

/-! ## C4 -/

/-- C4: `create` on an input whose explicitly-set field set is empty
fails with the `CreateError` classification before any database call, so
nothing is persisted: the session (hence the stored row count and every
stored row) is unchanged — whatever fault the storage layer would have
raised later. -/
theorem claimC4_create_empty_fails (s : Session) (now : Instant) (f : CreateFault) :
    BaseCRUD.createDict s now [] f = (Except.error (OpError.crud CrudError.createError), s) ∧
    (BaseCRUD.createDict s now [] f).snd.committed.rows.length = s.committed.rows.length :=
  ⟨rfl, rfl⟩

/-! ## C5 -/

/-- C5 fails on the code: an update whose raw input dict holds a set
field whose name is no column of the schema does NOT succeed — the
`hasattr` guard skips it in memory, but the `UPDATE ... VALUES`
statement still receives it and rejects the unknown column name, so the
operation faults with `UpdateError` (after a rollback). -/
theorem claimC5_counterexample :
    (BaseCRUD.updateDict ⟨⟨[⟨1, 0, 0, 5, "a"⟩], 2⟩, ⟨[⟨1, 0, 0, 5, "a"⟩], 2⟩, 0⟩ 9
        ⟨1, 0, 0, 5, "a"⟩ [("nonexistent_field", Value.str "x")] UpdateFault.noFault).fst
      = Except.error (OpError.crud CrudError.updateError) ∧
    (BaseCRUD.updateDict ⟨⟨[⟨1, 0, 0, 5, "a"⟩], 2⟩, ⟨[⟨1, 0, 0, 5, "a"⟩], 2⟩, 0⟩ 9
        ⟨1, 0, 0, 5, "a"⟩ [("nonexistent_field", Value.str "x")] UpdateFault.noFault).snd.committed
      = ⟨[⟨1, 0, 0, 5, "a"⟩], 2⟩ := by decide

/-- C5 amended: a set field whose name is not a column is ignored by the
in-memory attribute application but still reaches the persistence
statement, which rejects it: the update fails with the `UpdateError`
classification after an explicit rollback, and the unknown field has no
effect on the persisted rows (committed and pending state equal the
pre-operation committed store). -/
theorem claimC5_amended_unknown_field_fails (s : Session) (now : Instant) (e : Task)
    (data : RowData) (f : UpdateFault)
    (hbad : ∃ kv ∈ data, isTaskColumn kv.1 = false) :
    BaseCRUD.updateDict s now e data f
      = (Except.error (OpError.crud CrudError.updateError), s.rollback) ∧
    (BaseCRUD.updateDict s now e data f).snd.committed = s.committed ∧
    (BaseCRUD.updateDict s now e data f).snd.pending = s.committed := by
  rcases hbad with ⟨kv, hmem, hfalse⟩
  have hne : data.isEmpty = false := by
    cases data with
    | nil => cases hmem
    | cons a l => rfl
  have hallf : data.all (fun kv => isTaskColumn kv.1) = false := by
    rw [List.all_eq_false]
    exact ⟨kv, hmem, by simp [hfalse]⟩
  have hexec : execUpdate s.pending e.id data now = none := by
    simp [execUpdate, hallf]
  refine ⟨?_, ?_, ?_⟩ <;>
    simp [BaseCRUD.updateDict, hne, hexec, Session.rollback]

/-- Witness for the amended C5. -/
theorem claimC5_amended_unknown_field_fails_witness :
    BaseCRUD.updateDict ⟨⟨[⟨1, 0, 0, 5, "a"⟩], 2⟩, ⟨[⟨1, 0, 0, 5, "a"⟩], 2⟩, 0⟩ 9
        ⟨1, 0, 0, 5, "a"⟩ [("nonexistent_field", Value.str "x")] UpdateFault.noFault
      = (Except.error (OpError.crud CrudError.updateError),
         Session.rollback ⟨⟨[⟨1, 0, 0, 5, "a"⟩], 2⟩, ⟨[⟨1, 0, 0, 5, "a"⟩], 2⟩, 0⟩) ∧
    (BaseCRUD.updateDict ⟨⟨[⟨1, 0, 0, 5, "a"⟩], 2⟩, ⟨[⟨1, 0, 0, 5, "a"⟩], 2⟩, 0⟩ 9
        ⟨1, 0, 0, 5, "a"⟩ [("nonexistent_field", Value.str "x")] UpdateFault.noFault).snd.committed
      = ⟨[⟨1, 0, 0, 5, "a"⟩], 2⟩ ∧
    (BaseCRUD.updateDict ⟨⟨[⟨1, 0, 0, 5, "a"⟩], 2⟩, ⟨[⟨1, 0, 0, 5, "a"⟩], 2⟩, 0⟩ 9
        ⟨1, 0, 0, 5, "a"⟩ [("nonexistent_field", Value.str "x")] UpdateFault.noFault).snd.pending
      = ⟨[⟨1, 0, 0, 5, "a"⟩], 2⟩ :=
  claimC5_amended_unknown_field_fails _ 9 _ _ UpdateFault.noFault
    ⟨("nonexistent_field", Value.str "x"), by decide, by decide⟩


/-! ## C6 -/

/-- After an id-keyed `DELETE`, no row with that id survives. -/
theorem selectById_execDelete (st : Store) (id : Nat) :
    selectById (execDelete st id) id = none := by
  have hnil : ∀ rows : List Task,
      (rows.filter (fun t => !(t.id == id))).filter (fun t => t.id == id) = [] := by
    intro rows
    induction rows with
    | nil => rfl
    | cons h tl ih =>
      by_cases hh : h.id = id <;> simp [List.filter_cons, hh, ih]
  simp [selectById, execDelete, hnil]

/-- C6: for an id absent from the store, `get` returns the explicit
absent value without signalling any fault while `delete` fails with the
`NotFoundError` classification (it never silently no-ops); for a present
id, `delete` removes the row, returns it exactly as it existed before
removal, and a subsequent `get` of the same id returns absent. -/
theorem claimC6_absence_get_delete (s : Session) (id : Nat) :
    (selectById s.pending id = none →
      BaseCRUD.get s id false = (Except.ok none, s) ∧
      BaseCRUD.delete s id DeleteFault.noFault
        = (Except.error (OpError.crud CrudError.notFoundError), s)) ∧
    (∀ t : Task, selectById s.pending id = some t →
      BaseCRUD.delete s id DeleteFault.noFault
        = (Except.ok t, Session.commit { s with pending := execDelete s.pending id }) ∧
      (BaseCRUD.get (Session.commit { s with pending := execDelete s.pending id }) id false).fst
        = Except.ok none) := by
  constructor
  · intro hid
    constructor
    · simp [BaseCRUD.get, hid]
    · simp [BaseCRUD.delete, BaseCRUD.get, hid]
  · intro t hid
    constructor
    · simp [BaseCRUD.delete, BaseCRUD.get, hid]
    · simp [BaseCRUD.get, Session.commit, selectById_execDelete]

/-- Witness for C6: a one-row store, probing the absent id 3 and the
present id 1. -/
theorem claimC6_absence_get_delete_witness :
    (BaseCRUD.get ⟨⟨[⟨1, 0, 0, 5, "a"⟩], 2⟩, ⟨[⟨1, 0, 0, 5, "a"⟩], 2⟩, 0⟩ 3 false
        = (Except.ok none, ⟨⟨[⟨1, 0, 0, 5, "a"⟩], 2⟩, ⟨[⟨1, 0, 0, 5, "a"⟩], 2⟩, 0⟩) ∧
      BaseCRUD.delete ⟨⟨[⟨1, 0, 0, 5, "a"⟩], 2⟩, ⟨[⟨1, 0, 0, 5, "a"⟩], 2⟩, 0⟩ 3 DeleteFault.noFault
        = (Except.error (OpError.crud CrudError.notFoundError),
           ⟨⟨[⟨1, 0, 0, 5, "a"⟩], 2⟩, ⟨[⟨1, 0, 0, 5, "a"⟩], 2⟩, 0⟩)) ∧
    (BaseCRUD.delete ⟨⟨[⟨1, 0, 0, 5, "a"⟩], 2⟩, ⟨[⟨1, 0, 0, 5, "a"⟩], 2⟩, 0⟩ 1 DeleteFault.noFault
        = (Except.ok ⟨1, 0, 0, 5, "a"⟩, Session.commit ⟨⟨[⟨1, 0, 0, 5, "a"⟩], 2⟩, ⟨[], 2⟩, 0⟩) ∧
      (BaseCRUD.get (Session.commit ⟨⟨[⟨1, 0, 0, 5, "a"⟩], 2⟩, ⟨[], 2⟩, 0⟩) 1 false).fst
        = Except.ok none) :=
  ⟨(claimC6_absence_get_delete ⟨⟨[⟨1, 0, 0, 5, "a"⟩], 2⟩, ⟨[⟨1, 0, 0, 5, "a"⟩], 2⟩, 0⟩ 3).1
      (by decide),
   (claimC6_absence_get_delete ⟨⟨[⟨1, 0, 0, 5, "a"⟩], 2⟩, ⟨[⟨1, 0, 0, 5, "a"⟩], 2⟩, 0⟩ 1).2
      ⟨1, 0, 0, 5, "a"⟩ (by decide)⟩

/-! ## C8 -/

/-- C8: `list(skip, limit)` returns the stored rows in insertion order
with the first `skip` dropped and at most `limit` returned (a
subsequence of the stored rows, of length at most `limit`); on an empty
store it returns the empty sequence rather than a not-found failure, and
`list(0, 0)` returns the empty sequence without faulting. -/
theorem claimC8_list_pagination (s : Session) (skip limit : Nat) :
    BaseCRUD.get_many s false skip limit
      = (Except.ok ((s.pending.rows.drop skip).take limit), s) ∧
    ((s.pending.rows.drop skip).take limit).length ≤ limit ∧
    ((s.pending.rows.drop skip).take limit).Sublist s.pending.rows ∧
    (s.pending.rows = [] → BaseCRUD.get_many s false skip limit = (Except.ok [], s)) ∧
    BaseCRUD.get_many s false 0 0 = (Except.ok [], s) := by
  refine ⟨rfl, List.length_take_le _ _,
    (List.take_sublist _ _).trans (List.drop_sublist _ _), ?_, rfl⟩
  intro h
  simp [BaseCRUD.get_many, h]

/-- Witness for C8: pagination over the empty store. -/
theorem claimC8_list_pagination_witness :
    BaseCRUD.get_many ⟨⟨[], 1⟩, ⟨[], 1⟩, 0⟩ false 2 3
      = (Except.ok [], ⟨⟨[], 1⟩, ⟨[], 1⟩, 0⟩) :=
  (claimC8_list_pagination ⟨⟨[], 1⟩, ⟨[], 1⟩, 0⟩ 2 3).2.2.2.1 rfl

/-! ## C10 -/

/-- C10: invoked without explicit pagination arguments, both the
repository's `get_many` and the list endpoint apply the defaults
`skip = 0`, `limit = 100`, so the call returns at most 100 rows. -/
theorem claimC10_list_defaults (s : Session) (f : Bool) :
    BaseCRUD.get_many s f = BaseCRUD.get_many s f 0 100 ∧
    read_all_tasks_endpoint s f = read_all_tasks_endpoint s f 0 100 ∧
    (∀ ts : List Task, read_all_tasks_endpoint s false = Except.ok ts → ts.length ≤ 100) ∧
    read_all_tasks_endpoint s false = Except.ok ((s.pending.rows.drop 0).take 100) := by
  refine ⟨rfl, rfl, ?_, rfl⟩
  intro ts h
  have h4 : read_all_tasks_endpoint s false
      = Except.ok ((s.pending.rows.drop 0).take 100) := rfl
  rw [h] at h4
  obtain rfl := Except.ok.inj h4
  exact List.length_take_le _ _

/-- Witness for C10: the endpoint without pagination arguments on a
one-row store returns that row, within the 100-row bound. -/
theorem claimC10_list_defaults_witness :
    BaseCRUD.get_many ⟨⟨[⟨1, 0, 0, 5, "a"⟩], 2⟩, ⟨[⟨1, 0, 0, 5, "a"⟩], 2⟩, 0⟩ false
      = BaseCRUD.get_many ⟨⟨[⟨1, 0, 0, 5, "a"⟩], 2⟩, ⟨[⟨1, 0, 0, 5, "a"⟩], 2⟩, 0⟩ false 0 100 ∧
    ([⟨1, 0, 0, 5, "a"⟩] : List Task).length ≤ 100 :=
  ⟨(claimC10_list_defaults ⟨⟨[⟨1, 0, 0, 5, "a"⟩], 2⟩, ⟨[⟨1, 0, 0, 5, "a"⟩], 2⟩, 0⟩ false).1,
   (claimC10_list_defaults ⟨⟨[⟨1, 0, 0, 5, "a"⟩], 2⟩, ⟨[⟨1, 0, 0, 5, "a"⟩], 2⟩, 0⟩ false).2.2.1
      [⟨1, 0, 0, 5, "a"⟩] rfl⟩


/-! ## Evaluation lemmas for create and update under each fault -/

theorem create_noFault_eval (s : Session) (now : Instant) (inp : TaskCreate) :
    BaseCRUD.create s now inp CreateFault.noFault
      = (Except.ok ⟨s.pending.nextId, now, now, inp.datetime_to_do, inp.task_info⟩,
         Session.commit
           { s with pending :=
               ⟨s.pending.rows ++ [⟨s.pending.nextId, now, now, inp.datetime_to_do, inp.task_info⟩],
                s.pending.nextId + 1⟩ }) := rfl

theorem create_atCommit_eval (s : Session) (now : Instant) (inp : TaskCreate) :
    BaseCRUD.create s now inp CreateFault.atCommit
      = (Except.error (OpError.crud CrudError.createError), s.rollback) := rfl

theorem create_atRefresh_eval (s : Session) (now : Instant) (inp : TaskCreate) :
    BaseCRUD.create s now inp CreateFault.atRefresh
      = (Except.error (OpError.crud CrudError.createError),
         (Session.commit
           { s with pending :=
               ⟨s.pending.rows ++ [⟨s.pending.nextId, now, now, inp.datetime_to_do, inp.task_info⟩],
                s.pending.nextId + 1⟩ }).rollback) := rfl

/-- Every name a schema update dump can contain is a real column. -/
theorem dump_all_valid (u : TaskUpdate) :
    (u.dump).all (fun kv => isTaskColumn kv.1) = true := by
  rcases u with ⟨od, oi⟩
  rcases od with _ | d <;> rcases oi with _ | i <;> rfl

theorem execUpdate_valid (st : Store) (id : Nat) (data : RowData) (now : Instant)
    (hvalid : data.all (fun kv => isTaskColumn kv.1) = true) :
    execUpdate st id data now = some (updatedStore st id data now) := by
  simp [execUpdate, hvalid, updatedStore]

theorem updateDict_atExecute_eval (s : Session) (now : Instant) (e : Task) (data : RowData)
    (hne : data.isEmpty = false)
    (hvalid : data.all (fun kv => isTaskColumn kv.1) = true) :
    BaseCRUD.updateDict s now e data UpdateFault.atExecute
      = (Except.error (OpError.crud CrudError.updateError), s.rollback) := by
  simp only [BaseCRUD.updateDict, hne, Bool.false_eq_true, if_false,
    execUpdate_valid s.pending e.id data now hvalid]

theorem updateDict_atCommit_eval (s : Session) (now : Instant) (e : Task) (data : RowData)
    (hne : data.isEmpty = false)
    (hvalid : data.all (fun kv => isTaskColumn kv.1) = true) :
    BaseCRUD.updateDict s now e data UpdateFault.atCommit
      = (Except.error (OpError.crud CrudError.updateError),
         Session.rollback { s with pending := updatedStore s.pending e.id data now }) := by
  simp only [BaseCRUD.updateDict, hne, Bool.false_eq_true, if_false,
    execUpdate_valid s.pending e.id data now hvalid]

theorem updateDict_atRefresh_eval (s : Session) (now : Instant) (e : Task) (data : RowData)
    (hne : data.isEmpty = false)
    (hvalid : data.all (fun kv => isTaskColumn kv.1) = true) :
    BaseCRUD.updateDict s now e data UpdateFault.atRefresh
      = (Except.error (OpError.crud CrudError.updateError),
         (Session.commit { s with pending := updatedStore s.pending e.id data now }).rollback) := by
  simp only [BaseCRUD.updateDict, hne, Bool.false_eq_true, if_false,
    execUpdate_valid s.pending e.id data now hvalid]

/-- Whatever the refresh select finds, the fault-free update commits
exactly the updated store. -/
theorem updateDict_noFault_committed (s : Session) (now : Instant) (e : Task) (data : RowData)
    (hne : data.isEmpty = false)
    (hvalid : data.all (fun kv => isTaskColumn kv.1) = true) :
    (BaseCRUD.updateDict s now e data UpdateFault.noFault).snd.committed
      = updatedStore s.pending e.id data now ∧
    (BaseCRUD.updateDict s now e data UpdateFault.noFault).snd.pending
      = updatedStore s.pending e.id data now := by
  simp only [BaseCRUD.updateDict, hne, Bool.false_eq_true, if_false,
    execUpdate_valid s.pending e.id data now hvalid]
  cases hsel : selectById (Session.commit { s with pending := updatedStore s.pending e.id data now }).pending e.id with
  | none => simp [hsel, Session.commit, Session.rollback]
  | some t => simp [hsel, Session.commit]


/-! ## C2 -/

/-- C2 fails on the code as stated: a storage fault during `get` is
re-signalled (as the unclassified bare `CRUDException`, not a classified
kind) WITHOUT any rollback of the enclosing transaction — the session is
returned untouched and its rollback counter stays at zero. -/
theorem claimC2_counterexample :
    BaseCRUD.get ⟨⟨[⟨1, 0, 0, 5, "a"⟩], 2⟩, ⟨[⟨1, 0, 0, 5, "a"⟩], 2⟩, 0⟩ 1 true
      = (Except.error (OpError.crud CrudError.crudException),
         ⟨⟨[⟨1, 0, 0, 5, "a"⟩], 2⟩, ⟨[⟨1, 0, 0, 5, "a"⟩], 2⟩, 0⟩) ∧
    (BaseCRUD.get ⟨⟨[⟨1, 0, 0, 5, "a"⟩], 2⟩, ⟨[⟨1, 0, 0, 5, "a"⟩], 2⟩, 0⟩ 1 true).snd.rollbacks
      = 0 := by decide

/-- C2 amended: a firing storage fault is never swallowed — it is
re-signalled as the operation's kind (`CreateError`/`UpdateError`/
`DeleteError` for the write statements; the unclassified `CRUDException`
for `get`, `get_many` and delete's lookup phase).  The write operations
answer the fault with exactly one explicit `db.rollback()`, while the
read operations and delete's lookup phase perform none.  No half-applied
write is ever committed: afterwards the pending state equals the
committed state, and the committed store is either the pre-operation
committed store or (for a fault in `refresh`, after the commit) the
store the fault-free run would have committed. -/
theorem claimC2_amended_fault_handling (s : Session) (now : Instant) (c : Call)
    (hsync : s.pending = s.committed)
    (hfires : c.faultFires s = true) :
    (runCall s now c).fst = some (OpError.crud c.faultError) ∧
    (runCall s now c).snd.pending = (runCall s now c).snd.committed ∧
    ((runCall s now c).snd.committed = s.committed ∨
      (runCall s now c).snd.committed = (runCall s now c.clearFault).snd.committed) ∧
    (runCall s now c).snd.rollbacks
      = s.rollbacks + (if c.faultRollsBack then 1 else 0) := by
  cases c with
  | get id f =>
    simp only [Call.faultFires] at hfires
    subst hfires
    simp [runCall, errOf, BaseCRUD.get, Call.faultError, Call.faultRollsBack, hsync]
  | list a b f =>
    simp only [Call.faultFires] at hfires
    subst hfires
    simp [runCall, errOf, BaseCRUD.get_many, Call.faultError, Call.faultRollsBack, hsync]
  | create inp f =>
    cases f with
    | noFault => simp [Call.faultFires] at hfires
    | atCommit =>
      simp [runCall, errOf, create_atCommit_eval, Session.rollback,
        Call.faultError, Call.faultRollsBack]
    | atRefresh =>
      refine ⟨?_, ?_, Or.inr ?_, ?_⟩ <;>
        simp [runCall, errOf, create_atRefresh_eval, create_noFault_eval, Call.clearFault,
          Session.rollback, Session.commit, Call.faultError, Call.faultRollsBack]
  | update e inp f =>
    simp only [Call.faultFires, Bool.and_eq_true] at hfires
    obtain ⟨hf, hne'⟩ := hfires
    have hne : inp.dump.isEmpty = false := by
      cases h : inp.dump.isEmpty
      · rfl
      · rw [h] at hne'; cases hne'
    have hvalid := dump_all_valid inp
    cases f with
    | noFault => cases hf
    | atExecute =>
      simp [runCall, errOf, BaseCRUD.update,
        updateDict_atExecute_eval s now e inp.dump hne hvalid,
        Session.rollback, Call.faultError, Call.faultRollsBack]
    | atCommit =>
      simp [runCall, errOf, BaseCRUD.update,
        updateDict_atCommit_eval s now e inp.dump hne hvalid,
        Session.rollback, Call.faultError, Call.faultRollsBack]
    | atRefresh =>
      have hcom := updateDict_noFault_committed s now e inp.dump hne hvalid
      refine ⟨?_, ?_, Or.inr ?_, ?_⟩
      · simp [runCall, errOf, BaseCRUD.update,
          updateDict_atRefresh_eval s now e inp.dump hne hvalid, Call.faultError]
      · simp [runCall, errOf, BaseCRUD.update,
          updateDict_atRefresh_eval s now e inp.dump hne hvalid,
          Session.rollback, Session.commit]
      · rcases h : BaseCRUD.updateDict s now e inp.dump UpdateFault.noFault with ⟨r, s2⟩
        have h1 := (updateDict_noFault_committed s now e inp.dump hne hvalid).1
        rw [h] at h1
        simp only [runCall, BaseCRUD.update, Call.clearFault, h,
          updateDict_atRefresh_eval s now e inp.dump hne hvalid]
        cases r <;>
          { simp [errOf, Session.rollback, Session.commit]
            exact h1.symm }
      · simp [runCall, errOf, BaseCRUD.update,
          updateDict_atRefresh_eval s now e inp.dump hne hvalid,
          Session.rollback, Session.commit, Call.faultRollsBack]
  | delete id f =>
    cases f with
    | noFault => simp [Call.faultFires] at hfires
    | atLookup =>
      refine ⟨?_, ?_, Or.inl ?_, ?_⟩ <;>
        simp [runCall, errOf, BaseCRUD.delete, BaseCRUD.get, hsync,
          Call.faultError, Call.faultRollsBack]
    | atExecute =>
      simp only [Call.faultFires, Bool.or_eq_true, Bool.and_eq_true] at hfires
      have hsome : (selectById s.pending id).isSome = true := by
        rcases hfires with h | ⟨_, h⟩
        · cases h
        · exact h
      obtain ⟨t, hid⟩ := Option.isSome_iff_exists.mp hsome
      simp [runCall, errOf, BaseCRUD.delete, BaseCRUD.get, hid,
        Session.rollback, Call.faultError, Call.faultRollsBack]
    | atCommit =>
      simp only [Call.faultFires, Bool.or_eq_true, Bool.and_eq_true] at hfires
      have hsome : (selectById s.pending id).isSome = true := by
        rcases hfires with h | ⟨_, h⟩
        · cases h
        · exact h
      obtain ⟨t, hid⟩ := Option.isSome_iff_exists.mp hsome
      simp [runCall, errOf, BaseCRUD.delete, BaseCRUD.get, hid,
        Session.rollback, Call.faultError, Call.faultRollsBack]

/-- Witness for the amended C2: a create whose commit faults on a
concrete store. -/
theorem claimC2_amended_fault_handling_witness :
    (runCall ⟨⟨[], 1⟩, ⟨[], 1⟩, 0⟩ 7 (Call.create ⟨9, "x"⟩ CreateFault.atCommit)).fst
      = some (OpError.crud CrudError.createError) ∧
    (runCall ⟨⟨[], 1⟩, ⟨[], 1⟩, 0⟩ 7 (Call.create ⟨9, "x"⟩ CreateFault.atCommit)).snd.pending
      = (runCall ⟨⟨[], 1⟩, ⟨[], 1⟩, 0⟩ 7 (Call.create ⟨9, "x"⟩ CreateFault.atCommit)).snd.committed ∧
    ((runCall ⟨⟨[], 1⟩, ⟨[], 1⟩, 0⟩ 7 (Call.create ⟨9, "x"⟩ CreateFault.atCommit)).snd.committed
        = ⟨[], 1⟩ ∨
      (runCall ⟨⟨[], 1⟩, ⟨[], 1⟩, 0⟩ 7 (Call.create ⟨9, "x"⟩ CreateFault.atCommit)).snd.committed
        = (runCall ⟨⟨[], 1⟩, ⟨[], 1⟩, 0⟩ 7 (Call.create ⟨9, "x"⟩ CreateFault.noFault)).snd.committed) ∧
    (runCall ⟨⟨[], 1⟩, ⟨[], 1⟩, 0⟩ 7 (Call.create ⟨9, "x"⟩ CreateFault.atCommit)).snd.rollbacks
      = 1 :=
  claimC2_amended_fault_handling ⟨⟨[], 1⟩, ⟨[], 1⟩, 0⟩ 7
    (Call.create ⟨9, "x"⟩ CreateFault.atCommit) rfl (by decide)


/-! ## C9: the store invariant and reachability -/

theorem Store.WF.mono {st : Store} {n m : Instant} (h : st.WF n) (hnm : n ≤ m) :
    st.WF m :=
  ⟨h.1, fun t ht => ⟨(h.2 t ht).1, (h.2 t ht).2.1, le_trans (h.2 t ht).2.2 hnm⟩⟩

/-- The id-keyed update statement permutes no rows and changes no ids. -/
theorem updatedStore_map_id (st : Store) (id' : Nat) (data : RowData) (now : Instant) :
    (updatedStore st id' data now).rows.map Task.id = st.rows.map Task.id := by
  show (st.rows.map fun t => if t.id == id' then applyRow t data now else t).map Task.id
      = st.rows.map Task.id
  induction st.rows with
  | nil => rfl
  | cons h tl ih =>
    simp only [List.map_cons, ih, List.cons.injEq, and_true]
    split <;> simp [applyRow_id]

/-- Inserting the freshly numbered row preserves well-formedness. -/
theorem wf_insert {st : Store} {now : Instant} (h : st.WF now) (d : Instant) (i : String) :
    Store.WF ⟨st.rows ++ [⟨st.nextId, now, now, d, i⟩], st.nextId + 1⟩ now := by
  obtain ⟨hnd, hb⟩ := h
  constructor
  · simp only [List.map_append, List.map_cons, List.map_nil, List.nodup_append]
    refine ⟨hnd, List.nodup_singleton _, ?_⟩
    intro a ha hmem
    simp only [List.mem_singleton] at hmem
    subst hmem
    obtain ⟨u, hu, hua⟩ := List.mem_map.mp ha
    exact absurd (hua ▸ (hb u hu).1) (lt_irrefl _)
  · intro t ht
    rcases List.mem_append.mp ht with hmem | hmem
    · exact ⟨Nat.lt_succ_of_lt (hb t hmem).1, (hb t hmem).2.1, (hb t hmem).2.2⟩
    · simp only [List.mem_singleton] at hmem
      subst hmem
      exact ⟨Nat.lt_succ_self _, le_refl _, le_refl _⟩

/-- The update statement preserves well-formedness: the rewritten row
keeps its id and `created_at` and gets `updated_at := now`. -/
theorem wf_updatedStore {st : Store} {now : Instant} (h : st.WF now)
    (id' : Nat) (data : RowData) :
    (updatedStore st id' data now).WF now := by
  obtain ⟨hnd, hb⟩ := h
  constructor
  · rw [updatedStore_map_id]
    exact hnd
  · intro t ht
    obtain ⟨u, hu, hut⟩ := List.mem_map.mp ht
    subst hut
    by_cases hc : u.id == id'
    · simp only [hc, if_true]
      refine ⟨?_, ?_, ?_⟩
      · rw [applyRow_id]
        exact (hb u hu).1
      · rw [applyRow_created_at, applyRow_updated_at]
        exact le_trans (hb u hu).2.1 (hb u hu).2.2
      · rw [applyRow_updated_at]
    · simp only [hc, if_false]
      exact hb u hu

/-- The delete statement preserves well-formedness. -/
theorem wf_execDelete {st : Store} {now : Instant} (h : st.WF now) (id' : Nat) :
    (execDelete st id').WF now := by
  obtain ⟨hnd, hb⟩ := h
  refine ⟨?_, ?_⟩
  · exact List.Nodup.sublist (List.Sublist.map Task.id (List.filter_sublist _)) hnd
  · intro t ht
    exact hb t (List.mem_of_mem_filter ht)

/-- Every repository call leaves the session synchronised (pending =
committed) and the committed store well-formed — on success and on any
injected fault alike. -/
theorem wf_runCall (s : Session) (now : Instant) (c : Call)
    (hsync : s.pending = s.committed) (hwf : s.committed.WF now) :
    (runCall s now c).snd.pending = (runCall s now c).snd.committed ∧
    (runCall s now c).snd.committed.WF now := by
  have hpwf : s.pending.WF now := hsync ▸ hwf
  cases c with
  | get id f => cases f <;> exact ⟨hsync, hwf⟩
  | list a b f => cases f <;> exact ⟨hsync, hwf⟩
  | create inp f =>
    cases f with
    | noFault => exact ⟨rfl, wf_insert hpwf _ _⟩
    | atCommit => exact ⟨rfl, hwf⟩
    | atRefresh => exact ⟨rfl, wf_insert hpwf _ _⟩
  | update e inp f =>
    cases hne : inp.dump.isEmpty with
    | true =>
      have hrun : (runCall s now (Call.update e inp f)).snd = s := by
        simp [runCall, errOf, BaseCRUD.update, BaseCRUD.updateDict, hne]
      rw [hrun]
      exact ⟨hsync, hwf⟩
    | false =>
      have hvalid := dump_all_valid inp
      cases f with
      | atExecute =>
        have hrun : (runCall s now (Call.update e inp UpdateFault.atExecute)).snd
            = s.rollback := by
          simp [runCall, errOf, BaseCRUD.update,
            updateDict_atExecute_eval s now e inp.dump hne hvalid]
        rw [hrun]
        exact ⟨rfl, hwf⟩
      | atCommit =>
        have hrun : (runCall s now (Call.update e inp UpdateFault.atCommit)).snd
            = Session.rollback { s with pending := updatedStore s.pending e.id inp.dump now } := by
          simp [runCall, errOf, BaseCRUD.update,
            updateDict_atCommit_eval s now e inp.dump hne hvalid]
        rw [hrun]
        exact ⟨rfl, hwf⟩
      | atRefresh =>
        have hrun : (runCall s now (Call.update e inp UpdateFault.atRefresh)).snd
            = (Session.commit { s with pending := updatedStore s.pending e.id inp.dump now }).rollback := by
          simp [runCall, errOf, BaseCRUD.update,
            updateDict_atRefresh_eval s now e inp.dump hne hvalid]
        rw [hrun]
        exact ⟨rfl, wf_updatedStore hpwf _ _⟩
      | noFault =>
        rcases h : BaseCRUD.updateDict s now e inp.dump UpdateFault.noFault with ⟨r, s2⟩
        have h1 := (updateDict_noFault_committed s now e inp.dump hne hvalid).1
        have h2 := (updateDict_noFault_committed s now e inp.dump hne hvalid).2
        rw [h] at h1 h2
        have hrun : (runCall s now (Call.update e inp UpdateFault.noFault)).snd = s2 := by
          simp only [runCall, BaseCRUD.update, h]
          cases r <;> rfl
        rw [hrun]
        exact ⟨h2.trans h1.symm, h1 ▸ wf_updatedStore hpwf e.id inp.dump⟩
  | delete id f =>
    cases f with
    | atLookup => exact ⟨hsync, hwf⟩
    | noFault =>
      cases hid : selectById s.pending id with
      | none =>
        have hrun : (runCall s now (Call.delete id DeleteFault.noFault)).snd = s := by
          simp [runCall, errOf, BaseCRUD.delete, BaseCRUD.get, hid]
        rw [hrun]
        exact ⟨hsync, hwf⟩
      | some t =>
        have hrun : (runCall s now (Call.delete id DeleteFault.noFault)).snd
            = Session.commit { s with pending := execDelete s.pending id } := by
          simp [runCall, errOf, BaseCRUD.delete, BaseCRUD.get, hid]
        rw [hrun]
        exact ⟨rfl, wf_execDelete hpwf _⟩
    | atExecute =>
      cases hid : selectById s.pending id with
      | none =>
        have hrun : (runCall s now (Call.delete id DeleteFault.atExecute)).snd = s := by
          simp [runCall, errOf, BaseCRUD.delete, BaseCRUD.get, hid]
        rw [hrun]
        exact ⟨hsync, hwf⟩
      | some t =>
        have hrun : (runCall s now (Call.delete id DeleteFault.atExecute)).snd
            = s.rollback := by
          simp [runCall, errOf, BaseCRUD.delete, BaseCRUD.get, hid]
        rw [hrun]
        exact ⟨rfl, hwf⟩
    | atCommit =>
      cases hid : selectById s.pending id with
      | none =>
        have hrun : (runCall s now (Call.delete id DeleteFault.atCommit)).snd = s := by
          simp [runCall, errOf, BaseCRUD.delete, BaseCRUD.get, hid]
        rw [hrun]
        exact ⟨hsync, hwf⟩
      | some t =>
        have hrun : (runCall s now (Call.delete id DeleteFault.atCommit)).snd
            = Session.rollback { s with pending := execDelete s.pending id } := by
          simp [runCall, errOf, BaseCRUD.delete, BaseCRUD.get, hid]
        rw [hrun]
        exact ⟨rfl, hwf⟩

/-- Reachable sessions are synchronised and well-formed. -/
theorem reachable_wf {s : Session} {now : Instant} (h : Reachable s now) :
    s.pending = s.committed ∧ s.committed.WF now := by
  induction h with
  | init =>
    refine ⟨rfl, List.nodup_nil, ?_⟩
    intro t ht
    cases ht
  | step c hr hle ih => exact wf_runCall _ _ c ih.1 (ih.2.mono hle)


/-- C9: in every reachable store state, every persisted row satisfies
`created_at ≤ updated_at` (in the committed and in the pending view),
and the invariant is preserved by every repository operation run at a
later-or-equal instant — on success and on classified failure alike. -/
theorem claimC9_created_le_updated (s : Session) (now : Instant)
    (h : Reachable s now) :
    (∀ t ∈ s.committed.rows, t.created_at ≤ t.updated_at) ∧
    (∀ t ∈ s.pending.rows, t.created_at ≤ t.updated_at) ∧
    (∀ (c : Call) (now' : Instant), now ≤ now' →
      ∀ t ∈ (runCall s now' c).snd.committed.rows, t.created_at ≤ t.updated_at) := by
  obtain ⟨hsync, hwf⟩ := reachable_wf h
  refine ⟨fun t ht => (hwf.2 t ht).2.1, fun t ht => (hwf.2 t (hsync ▸ ht)).2.1, ?_⟩
  intro c now' hle t ht
  exact ((wf_runCall s now' c hsync (hwf.mono hle)).2.2 t ht).2.1

/-- Witness for C9: the store reached by one fault-free create holds the
row `⟨1, 5, 5, 9, "x"⟩`, which satisfies the invariant. -/
theorem claimC9_created_le_updated_witness :
    (⟨1, 5, 5, 9, "x"⟩ : Task)
      ∈ (runCall ⟨⟨[], 1⟩, ⟨[], 1⟩, 0⟩ 5 (Call.create ⟨9, "x"⟩ CreateFault.noFault)).snd.committed.rows ∧
    (⟨1, 5, 5, 9, "x"⟩ : Task).created_at ≤ (⟨1, 5, 5, 9, "x"⟩ : Task).updated_at :=
  ⟨by decide,
   (claimC9_created_le_updated
      (runCall ⟨⟨[], 1⟩, ⟨[], 1⟩, 0⟩ 5 (Call.create ⟨9, "x"⟩ CreateFault.noFault)).snd 5
      (Reachable.step (Call.create ⟨9, "x"⟩ CreateFault.noFault) Reachable.init
        (by decide))).1
     ⟨1, 5, 5, 9, "x"⟩ (by decide)⟩

end App
